import Mathlib

/-!
Shallow embedding of the BIM IFC orchestration service (backend/main.py).

The service keeps uploaded IFC models in an in-memory table keyed by a
generated model id, and exposes four HTTP endpoints: upload, query an
element by GUID, remove a model, and list models.  The external IFC
engine (ifcopenshell) is an opaque collaborator: its open/lookup/derive
operations are modelled as fallible inputs (Except values and functions
stored in the model/element handles), while every branch of the
orchestration layer itself is translated from the Python source.

Python dicts are modelled as insertion-ordered association lists with
overwrite-on-insert, matching dict assignment semantics.  HTTP outcomes
are modelled by `HResp`: a 200 body or an HTTPException with status and
detail string.  The scratch-file area of the filesystem is modelled as
the list of existing paths (`SysState.disk`).
-/

set_option autoImplicit false

deriving instance DecidableEq for Except

namespace BIM

/-- Insertion-ordered string-keyed map, the model of a Python dict. -/
abbrev Dict (α : Type) : Type := List (String × α)

/-- Python `d[k]` / `k in d`: first (unique) entry with the given key. -/
def Dict.lookup {α : Type} : Dict α → String → Option α
  | [], _ => none
  | (k, v) :: rest, key => if k == key then some v else Dict.lookup rest key

/-- Python `d[k] = v`: overwrite in place if the key exists, else append. -/
def Dict.insert {α : Type} : Dict α → String → α → Dict α
  | [], k, v => [(k, v)]
  | (k', v') :: rest, k, v =>
      if k' == k then (k, v) :: rest else (k', v') :: Dict.insert rest k v

/-- Python `del d[k]` (keys are unique, so filtering equals deletion). -/
def Dict.erase {α : Type} (d : Dict α) (k : String) : Dict α :=
  d.filter (fun p => p.1 != k)

/-- A scalar value stored in a property set. -/
inductive Scalar where
  | str (s : String)
  | num (v : Rat)
  | boolVal (b : Bool)
  | null
deriving DecidableEq

/-- An IfcPhysicalQuantity entity: its Name and which of the three
recognized value attributes it carries (hasattr = Option.isSome).
Quantity values are numeric; they are never computed with here. -/
structure Quantity where
  name : String
  lengthValue : Option Rat
  areaValue : Option Rat
  volumeValue : Option Rat
deriving DecidableEq

/-- One entry of the Quantities pseudo-pset: {value, unit}. -/
structure QuantRec where
  value : Rat
  unit : String
deriving DecidableEq

/-- The hasattr-elif chain of the quantities loop in get_element_by_guid:
LengthValue wins, then AreaValue, then VolumeValue, else no entry. -/
def quantityEntry (q : Quantity) : Option QuantRec :=
  match q.lengthValue with
  | some v => some ⟨v, "m"⟩
  | none =>
    match q.areaValue with
    | some v => some ⟨v, "m²"⟩
    | none =>
      match q.volumeValue with
      | some v => some ⟨v, "m³"⟩
      | none => none

/-- `quantities[quantity.Name] = {...}` for one quantity, when it has a
recognized value kind. -/
def insertQuantity (acc : Dict QuantRec) (q : Quantity) : Dict QuantRec :=
  match quantityEntry q with
  | some r => Dict.insert acc q.name r
  | none => acc

/-- The inner `for quantity in prop_def.Quantities` loop. -/
def insertQuantities (qs : List Quantity) (acc : Dict QuantRec) : Dict QuantRec :=
  qs.foldl insertQuantity acc

/-- RelatingPropertyDefinition of an IfcRelDefinesByProperties relation:
its entity type tag and (when an IfcElementQuantity) its Quantities. -/
structure PropDef where
  defType : String
  quantities : List Quantity
deriving DecidableEq

/-- One relation from element.IsDefinedBy.  Accessing
RelatingPropertyDefinition on the engine handle may raise, which is the
mid-loop failure point of the quantities block. -/
structure Rel where
  relType : String
  relatingPropertyDefinition : Except String PropDef
deriving DecidableEq

/-- The outer `for rel in element.IsDefinedBy` loop of the quantities
block, threading the quantities dict.  An engine exception aborts the
whole loop (the partial accumulator is discarded by the caller). -/
def collectQuantities : List Rel → Dict QuantRec → Except String (Dict QuantRec)
  | [], acc => .ok acc
  | rel :: rest, acc =>
    if rel.relType == "IfcRelDefinesByProperties" then
      match rel.relatingPropertyDefinition with
      | .error e => .error e
      | .ok pd =>
        if pd.defType == "IfcElementQuantity" then
          collectQuantities rest (insertQuantities pd.quantities acc)
        else collectQuantities rest acc
    else collectQuantities rest acc

/-- The quantity entities the loop actually visits: those behind an
IfcRelDefinesByProperties relation whose RelatingPropertyDefinition
reads successfully and is an IfcElementQuantity. -/
def reachedQuantities : List Rel → List Quantity
  | [] => []
  | rel :: rest =>
    (if rel.relType == "IfcRelDefinesByProperties" then
      match rel.relatingPropertyDefinition with
      | .ok pd => if pd.defType == "IfcElementQuantity" then pd.quantities else []
      | .error _ => []
    else []) ++ reachedQuantities rest

/-- An element handle.  Identity fields always read; the three fixed
attribute reads, the pset derivation and the IsDefinedBy traversal are
each fallible engine operations. -/
structure Element where
  globalId : String
  name : Option String
  typeName : String
  objectTypeRead : Except String (Option String)
  tagRead : Except String (Option String)
  descriptionRead : Except String (Option String)
  getPsets : Except String (Dict (Dict Scalar))
  isDefinedBy : Except String (List Rel)
deriving DecidableEq

/-- A value of the view-level psets mapping: an ordinary pset body or
the Quantities pseudo-pset body. -/
inductive PsetBody where
  | props (m : Dict Scalar)
  | quants (m : Dict QuantRec)
deriving DecidableEq

/-- The query response shape (ElementResponse). -/
structure ElementView where
  guid : String
  name : Option String
  type : String
  properties : Dict (Option String)
  psets : Dict PsetBody
deriving DecidableEq

/-- The fixed-attribute block: the dict literal of ObjectType/Tag/
Description inside `try`, with `except: pass` leaving the initial empty
dict if any read raises. -/
def elementProperties (e : Element) : Dict (Option String) :=
  match e.objectTypeRead, e.tagRead, e.descriptionRead with
  | .ok o, .ok t, .ok d => [("ObjectType", o), ("Tag", t), ("Description", d)]
  | _, _, _ => []

/-- The pset block: get_psets under `try`, degrading to the initial
empty dict on any exception. -/
def basePsets (e : Element) : Dict PsetBody :=
  match e.getPsets with
  | .ok ps => ps.map (fun p => (p.1, PsetBody.props p.2))
  | .error _ => []

/-- The quantities block: traverse IsDefinedBy under `try`; any
exception (fetching the relations or mid-loop) discards the whole
accumulator, degrading to the empty dict. -/
def elementQuantities (e : Element) : Dict QuantRec :=
  match e.isDefinedBy with
  | .error _ => []
  | .ok rels =>
    match collectQuantities rels [] with
    | .ok qs => qs
    | .error _ => []

/-- Assembly of the ElementResponse from an element handle:
`if quantities:` adds the reserved Quantities key only when non-empty. -/
def projectElement (e : Element) : ElementView :=
  { guid := e.globalId
    name := e.name
    type := e.typeName
    properties := elementProperties e
    psets :=
      let qs := elementQuantities e
      if qs.isEmpty then basePsets e
      else Dict.insert (basePsets e) "Quantities" (PsetBody.quants qs) }

/-- The first IfcProject root entity of a model (its Name is optional). -/
structure IfcProject where
  name : Option String

/-- A parsed model handle.  by_guid may raise, or return a falsy result
when no element carries the GUID. -/
structure IfcModel where
  projects : List IfcProject
  productCount : Nat
  byGuid : String → Except String (Option Element)

/-- One entry of the in-memory ifc_files table. -/
structure ModelEntry where
  file : IfcModel
  path : String
  filename : String

/-- Process state: the ifc_files table plus the scratch-file area. -/
structure SysState where
  store : Dict ModelEntry
  disk : List String

/-- An endpoint outcome: 200 body, or HTTPException(status, detail). -/
inductive HResp (α : Type) where
  | ok (body : α)
  | httpError (status : Nat) (detail : String)
deriving DecidableEq

/-- Request body of POST /get-element-by-guid. -/
structure GUIDRequest where
  model_id : String
  guid : String

/-- Response body of POST /upload-ifc. -/
structure UploadResponse where
  model_id : String
  filename : String
  project_name : Option String
  total_elements : Nat
  message : String
deriving DecidableEq

/-- POST /upload-ifc: write the content to a fresh scratch path, open it
with the engine, register the entry, and report project info.  The
generated uuid, the scratch path and the engine's verdict on this
content are inputs.  An open failure surfaces as a 500 after the write,
leaving the scratch file in place and the store untouched. -/
def upload_ifc (st : SysState) (filename tmpPath newId : String)
    (openResult : Except String IfcModel) : HResp UploadResponse × SysState :=
  let disk1 := st.disk ++ [tmpPath]
  match openResult with
  | .error e =>
      (.httpError 500 ("Error processing IFC: " ++ e), { st with disk := disk1 })
  | .ok m =>
      let store1 := Dict.insert st.store newId ⟨m, tmpPath, filename⟩
      let pn : Option String :=
        match m.projects.head? with
        | some p => p.name
        | none => some "Unknown"
      (.ok { model_id := newId
             filename := filename
             project_name := pn
             total_elements := m.productCount
             message := "IFC file uploaded successfully" },
       { store := store1, disk := disk1 })

/-- POST /get-element-by-guid: model lookup, guid lookup, projection.
HTTPExceptions pass through; any other exception becomes a 500. -/
def get_element_by_guid (st : SysState) (req : GUIDRequest) : HResp ElementView :=
  match Dict.lookup st.store req.model_id with
  | none => .httpError 404 "Model not found"
  | some entry =>
    match entry.file.byGuid req.guid with
    | .error e => .httpError 500 ("Error retrieving element: " ++ e)
    | .ok none => .httpError 404 ("Element with GUID " ++ req.guid ++ " not found")
    | .ok (some el) => .ok (projectElement el)

/-- DELETE /remove-model/{model_id}: delete the scratch file if it
exists (`osRemove` is the outcome of os.remove when invoked), then drop
the store entry.  A raising os.remove becomes a 500 before the entry is
dropped. -/
def remove_model (st : SysState) (mid : String) (osRemove : Except String Unit) :
    HResp String × SysState :=
  match Dict.lookup st.store mid with
  | none => (.httpError 404 "Model not found", st)
  | some entry =>
    if entry.path ∈ st.disk then
      match osRemove with
      | .error e => (.httpError 500 ("Error removing model: " ++ e), st)
      | .ok _ =>
          (.ok "Model removed successfully",
           { store := Dict.erase st.store mid
             disk := st.disk.filter (fun p => p != entry.path) })
    else
      (.ok "Model removed successfully",
       { store := Dict.erase st.store mid, disk := st.disk })

/-- GET /models: all (model_id, filename) pairs in table order. -/
def list_models (st : SysState) : List (String × String) :=
  st.store.map (fun p => (p.1, p.2.filename))

/-! ### Association-list lemmas -/

theorem lookup_insert {α : Type} (d : Dict α) (k : String) (v : α) (key : String) :
    Dict.lookup (Dict.insert d k v) key =
      if k == key then some v else Dict.lookup d key := by
  induction d with
  | nil => rfl
  | cons p rest ih =>
    obtain ⟨k', v'⟩ := p
    by_cases h : k' = k
    · subst h
      by_cases h1 : k' = key <;> simp [Dict.insert, Dict.lookup, h1]
    · by_cases h1 : k' = key
      · subst h1
        have hk : ¬ k = k' := fun hh => h hh.symm
        simp [Dict.insert, Dict.lookup, h, hk]
      · simp [Dict.insert, Dict.lookup, h, h1, ih]

theorem lookup_erase_self {α : Type} (d : Dict α) (k : String) :
    Dict.lookup (Dict.erase d k) k = none := by
  induction d with
  | nil => rfl
  | cons p rest ih =>
    obtain ⟨k', v'⟩ := p
    by_cases h : k' = k
    · simpa [Dict.erase, h] using ih
    · simpa [Dict.erase, Dict.lookup, h] using ih

theorem lookup_some_mem {α : Type} (d : Dict α) (k : String) (v : α)
    (h : Dict.lookup d k = some v) : (k, v) ∈ d := by
  induction d with
  | nil => simp [Dict.lookup] at h
  | cons p rest ih =>
    obtain ⟨k', v'⟩ := p
    by_cases hk : k' = k
    · subst hk
      simp [Dict.lookup] at h
      simp [h]
    · simp [Dict.lookup, hk] at h
      simp [ih h]

theorem lookup_none_not_mem {α : Type} (d : Dict α) (k : String)
    (h : Dict.lookup d k = none) (v : α) : (k, v) ∉ d := by
  induction d with
  | nil => simp
  | cons p rest ih =>
    obtain ⟨k', v'⟩ := p
    by_cases hk : k' = k
    · subst hk
      simp [Dict.lookup] at h
    · simp [Dict.lookup, hk] at h
      simp only [List.mem_cons]
      rintro (hh | hh)
      · exact hk (congrArg Prod.fst hh).symm
      · exact ih h hh

/-! ### Quantities-loop lemmas -/

theorem lookup_insertQuantity_none (acc : Dict QuantRec) (q : Quantity) (n : String)
    (hacc : Dict.lookup acc n = none) (hq : q.name = n → quantityEntry q = none) :
    Dict.lookup (insertQuantity acc q) n = none := by
  unfold insertQuantity
  cases hqe : quantityEntry q with
  | none => exact hacc
  | some r =>
    rw [lookup_insert]
    have hne : ¬ q.name = n := fun hh => by simp [hq hh] at hqe
    simp [hne, hacc]

theorem lookup_insertQuantities_none (qs : List Quantity) (acc : Dict QuantRec) (n : String)
    (hacc : Dict.lookup acc n = none)
    (hqs : ∀ q ∈ qs, q.name = n → quantityEntry q = none) :
    Dict.lookup (insertQuantities qs acc) n = none := by
  induction qs generalizing acc with
  | nil => exact hacc
  | cons q qs ih =>
    have h1 : insertQuantities (q :: qs) acc = insertQuantities qs (insertQuantity acc q) := rfl
    rw [h1]
    exact ih (insertQuantity acc q)
      (lookup_insertQuantity_none acc q n hacc (hqs q (by simp)))
      (fun q' hq' => hqs q' (by simp [hq']))

theorem lookup_insertQuantity_some (acc : Dict QuantRec) (q : Quantity) (n : String)
    (r : QuantRec) (h : Dict.lookup (insertQuantity acc q) n = some r) :
    Dict.lookup acc n = some r ∨ (q.name = n ∧ quantityEntry q = some r) := by
  unfold insertQuantity at h
  cases hqe : quantityEntry q with
  | none => rw [hqe] at h; exact .inl h
  | some r' =>
    rw [hqe, lookup_insert] at h
    by_cases hn : q.name = n
    · simp [hn] at h
      exact .inr ⟨hn, by simp [hqe, h]⟩
    · exact .inl (by simpa [hn] using h)

theorem lookup_insertQuantities_some (qs : List Quantity) (acc : Dict QuantRec)
    (n : String) (r : QuantRec)
    (h : Dict.lookup (insertQuantities qs acc) n = some r) :
    Dict.lookup acc n = some r ∨ ∃ q ∈ qs, q.name = n ∧ quantityEntry q = some r := by
  induction qs generalizing acc with
  | nil => exact .inl h
  | cons q qs ih =>
    have h1 : insertQuantities (q :: qs) acc = insertQuantities qs (insertQuantity acc q) := rfl
    rw [h1] at h
    rcases ih (insertQuantity acc q) h with h' | ⟨q', hq', hh⟩
    · rcases lookup_insertQuantity_some acc q n r h' with h'' | hh
      · exact .inl h''
      · exact .inr ⟨q, by simp, hh⟩
    · exact .inr ⟨q', by simp [hq'], hh⟩

theorem collectQuantities_lookup_none (rels : List Rel) (acc qs : Dict QuantRec)
    (n : String) (hc : collectQuantities rels acc = .ok qs)
    (hacc : Dict.lookup acc n = none)
    (hr : ∀ q ∈ reachedQuantities rels, q.name = n → quantityEntry q = none) :
    Dict.lookup qs n = none := by
  induction rels generalizing acc with
  | nil =>
    simp [collectQuantities] at hc
    rw [← hc]; exact hacc
  | cons rel rest ih =>
    by_cases h1 : rel.relType = "IfcRelDefinesByProperties"
    · cases hpd : rel.relatingPropertyDefinition with
      | error e => simp [collectQuantities, h1, hpd] at hc
      | ok pd =>
        by_cases h2 : pd.defType = "IfcElementQuantity"
        · have hc' : collectQuantities rest (insertQuantities pd.quantities acc) = .ok qs := by
            simpa [collectQuantities, h1, hpd, h2] using hc
          refine ih _ hc' ?_ ?_
          · exact lookup_insertQuantities_none _ _ _ hacc
              (fun q hq => hr q (by simp [reachedQuantities, h1, hpd, h2, hq]))
          · exact fun q hq => hr q (by simp [reachedQuantities, h1, hpd, h2, hq])
        · have hc' : collectQuantities rest acc = .ok qs := by
            simpa [collectQuantities, h1, hpd, h2] using hc
          exact ih _ hc' hacc
            (fun q hq => hr q (by simp [reachedQuantities, h1, hpd, h2, hq]))
    · have hc' : collectQuantities rest acc = .ok qs := by
        simpa [collectQuantities, h1] using hc
      exact ih _ hc' hacc (fun q hq => hr q (by simp [reachedQuantities, h1, hq]))

theorem collectQuantities_lookup_some (rels : List Rel) (acc qs : Dict QuantRec)
    (n : String) (r : QuantRec) (hc : collectQuantities rels acc = .ok qs)
    (h : Dict.lookup qs n = some r) :
    Dict.lookup acc n = some r ∨
      ∃ q ∈ reachedQuantities rels, q.name = n ∧ quantityEntry q = some r := by
  induction rels generalizing acc with
  | nil =>
    simp [collectQuantities] at hc
    rw [hc]; exact .inl h
  | cons rel rest ih =>
    by_cases h1 : rel.relType = "IfcRelDefinesByProperties"
    · cases hpd : rel.relatingPropertyDefinition with
      | error e => simp [collectQuantities, h1, hpd] at hc
      | ok pd =>
        by_cases h2 : pd.defType = "IfcElementQuantity"
        · have hc' : collectQuantities rest (insertQuantities pd.quantities acc) = .ok qs := by
            simpa [collectQuantities, h1, hpd, h2] using hc
          rcases ih _ hc' with h' | ⟨q', hq', hh⟩
          · rcases lookup_insertQuantities_some _ _ _ _ h' with h'' | ⟨q', hq', hh⟩
            · exact .inl h''
            · exact .inr ⟨q', by simp [reachedQuantities, h1, hpd, h2, hq'], hh⟩
          · exact .inr ⟨q', by simp [reachedQuantities, h1, hpd, h2]; right; exact hq', hh⟩
        · have hc' : collectQuantities rest acc = .ok qs := by
            simpa [collectQuantities, h1, hpd, h2] using hc
          rcases ih _ hc' with h' | ⟨q', hq', hh⟩
          · exact .inl h'
          · exact .inr ⟨q', by simp [reachedQuantities, h1, hpd, h2, hq'], hh⟩
    · have hc' : collectQuantities rest acc = .ok qs := by
        simpa [collectQuantities, h1] using hc
      rcases ih _ hc' with h' | ⟨q', hq', hh⟩
      · exact .inl h'
      · exact .inr ⟨q', by simp [reachedQuantities, h1, hq'], hh⟩

/-! ### Claim theorems -/

/-- C1: During Query-by-guid, each quantity entity reached through the
defining relationships is mapped to exactly one unit by the value kind
it carries (LengthValue to "m", else AreaValue to "m²", else
VolumeValue to "m³", else no entry); every entry of the resulting
Quantities mapping arises this way from a reached quantity, and a name
all of whose reached quantities carry none of the three value kinds is
absent from the mapping. -/
theorem quantity_unit_inference :
    (∀ (q : Quantity) (v : Rat), q.lengthValue = some v →
       quantityEntry q = some ⟨v, "m"⟩) ∧
    (∀ (q : Quantity) (v : Rat), q.lengthValue = none → q.areaValue = some v →
       quantityEntry q = some ⟨v, "m²"⟩) ∧
    (∀ (q : Quantity) (v : Rat), q.lengthValue = none → q.areaValue = none →
       q.volumeValue = some v → quantityEntry q = some ⟨v, "m³"⟩) ∧
    (∀ q : Quantity, q.lengthValue = none → q.areaValue = none →
       q.volumeValue = none → quantityEntry q = none) ∧
    (∀ (rels : List Rel) (qs : Dict QuantRec) (n : String) (r : QuantRec),
       collectQuantities rels [] = .ok qs → Dict.lookup qs n = some r →
       ∃ q ∈ reachedQuantities rels, q.name = n ∧ quantityEntry q = some r) ∧
    (∀ (rels : List Rel) (qs : Dict QuantRec) (n : String),
       collectQuantities rels [] = .ok qs →
       (∀ q ∈ reachedQuantities rels, q.name = n → quantityEntry q = none) →
       Dict.lookup qs n = none) := by
  refine ⟨?_, ?_, ?_, ?_, ?_, ?_⟩
  · intro q v h; simp [quantityEntry, h]
  · intro q v h1 h2; simp [quantityEntry, h1, h2]
  · intro q v h1 h2 h3; simp [quantityEntry, h1, h2, h3]
  · intro q h1 h2 h3; simp [quantityEntry, h1, h2, h3]
  · intro rels qs n r hc h
    rcases collectQuantities_lookup_some rels [] qs n r hc h with h' | hh
    · simp [Dict.lookup] at h'
    · exact hh
  · intro rels qs n hc hall
    exact collectQuantities_lookup_none rels [] qs n hc rfl hall

/-- Witness for C1 at the concrete quantities of the spec example:
Length = 5 gives unit "m", an area value gives "m²", a volume value
gives "m³", a quantity with no recognized kind gives no entry and its
name is absent from the mapping built by the loop. -/
theorem quantity_unit_inference_witness :
    quantityEntry ⟨"Length", some 5, none, none⟩ = some ⟨5, "m"⟩ ∧
    quantityEntry ⟨"GrossArea", none, some 2, none⟩ = some ⟨2, "m²"⟩ ∧
    quantityEntry ⟨"GrossVolume", none, none, some 3⟩ = some ⟨3, "m³"⟩ ∧
    quantityEntry ⟨"CountValueOnly", none, none, none⟩ = none ∧
    Dict.lookup ([] : Dict QuantRec) "CountValueOnly" = none :=
  ⟨quantity_unit_inference.1 _ 5 rfl,
   quantity_unit_inference.2.1 _ 2 rfl rfl,
   quantity_unit_inference.2.2.1 _ 3 rfl rfl rfl,
   quantity_unit_inference.2.2.2.1 _ rfl rfl rfl,
   quantity_unit_inference.2.2.2.2.2
     [⟨"IfcRelDefinesByProperties",
       .ok ⟨"IfcElementQuantity", [⟨"CountValueOnly", none, none, none⟩]⟩⟩]
     [] "CountValueOnly" (by decide) (by decide)⟩

/-- C9: When the quantities block finds nothing, the reserved
"Quantities" pseudo-pset is not added to the view: provided the
engine-derived psets honor the reservation (no ordinary pset of that
name), the resulting psets mapping has no "Quantities" key at all. -/
theorem no_quantities_key_when_empty (e : Element)
    (hq : elementQuantities e = [])
    (hres : Dict.lookup (basePsets e) "Quantities" = none) :
    Dict.lookup (projectElement e).psets "Quantities" = none := by
  simp [projectElement, hq, hres]

/-- Witness for C9: an element with an ordinary pset and no quantity
relations yields a view without a Quantities key. -/
theorem no_quantities_key_when_empty_witness :
    Dict.lookup (projectElement
      { globalId := "2O2Fr5eZv4GxuGqPMwTs8L"
        name := some "Wall-001"
        typeName := "IfcWall"
        objectTypeRead := .ok none
        tagRead := .ok none
        descriptionRead := .ok none
        getPsets := .ok [("Pset_WallCommon", [("IsExternal", Scalar.boolVal true)])]
        isDefinedBy := .ok [] }).psets "Quantities" = none :=
  no_quantities_key_when_empty _ rfl rfl

/-- C3: An upload whose content the engine cannot open returns a 500
carrying the error text and leaves the model store unchanged: no entry
is registered for that upload. -/
theorem upload_open_failure_no_registration (st : SysState)
    (fn tp nid err : String) :
    (upload_ifc st fn tp nid (.error err)).1 =
      .httpError 500 ("Error processing IFC: " ++ err) ∧
    (upload_ifc st fn tp nid (.error err)).2.store = st.store :=
  ⟨rfl, rfl⟩

/-- C7: On an engine open failure, the scratch file written before the
open attempt stays on disk (the failure path performs no deletion). -/
theorem upload_open_failure_scratch_leak (st : SysState)
    (fn tp nid err : String) :
    (upload_ifc st fn tp nid (.error err)).2.disk = st.disk ++ [tp] ∧
    tp ∈ (upload_ifc st fn tp nid (.error err)).2.disk :=
  ⟨rfl, by simp [upload_ifc]⟩

/-- C2: Query-by-guid status codes: an unregistered model_id gives 404
"Model not found"; a registered model without the guid gives 404 with
the guid in the message; an engine exception during lookup gives a
500. -/
theorem query_status_codes (st : SysState) (mid g : String) :
    (Dict.lookup st.store mid = none →
       get_element_by_guid st ⟨mid, g⟩ = .httpError 404 "Model not found") ∧
    (∀ entry : ModelEntry, Dict.lookup st.store mid = some entry →
       entry.file.byGuid g = .ok none →
       get_element_by_guid st ⟨mid, g⟩ =
         .httpError 404 ("Element with GUID " ++ g ++ " not found")) ∧
    (∀ (entry : ModelEntry) (err : String),
       Dict.lookup st.store mid = some entry →
       entry.file.byGuid g = .error err →
       get_element_by_guid st ⟨mid, g⟩ =
         .httpError 500 ("Error retrieving element: " ++ err)) :=
  ⟨fun h => by simp [get_element_by_guid, h],
   fun entry h1 h2 => by simp [get_element_by_guid, h1, h2],
   fun entry err h1 h2 => by simp [get_element_by_guid, h1, h2]⟩

/-- A model with no elements: by_guid always reports not-found. -/
def mEmpty : IfcModel := { projects := [], productCount := 0, byGuid := fun _ => .ok none }

/-- A model whose guid lookup raises. -/
def mBoom : IfcModel := { projects := [], productCount := 0, byGuid := fun _ => .error "boom" }

/-- Two-model state used by the C2 witness. -/
def stC2 : SysState :=
  ⟨[("m1", ⟨mEmpty, "/tmp/a", "a.ifc"⟩), ("m2", ⟨mBoom, "/tmp/b", "b.ifc"⟩)],
   ["/tmp/a", "/tmp/b"]⟩

/-- Witness for C2 exercising the three failure branches. -/
theorem query_status_codes_witness :
    get_element_by_guid stC2 ⟨"missing", "G"⟩ = .httpError 404 "Model not found" ∧
    get_element_by_guid stC2 ⟨"m1", "G"⟩ =
      .httpError 404 ("Element with GUID " ++ "G" ++ " not found") ∧
    get_element_by_guid stC2 ⟨"m2", "G"⟩ =
      .httpError 500 ("Error retrieving element: " ++ "boom") :=
  ⟨(query_status_codes stC2 "missing" "G").1 rfl,
   (query_status_codes stC2 "m1" "G").2.1 ⟨mEmpty, "/tmp/a", "a.ifc"⟩ rfl rfl,
   (query_status_codes stC2 "m2" "G").2.2 ⟨mBoom, "/tmp/b", "b.ifc"⟩ "boom" rfl rfl⟩

/-- C4: Each of the three retrieval blocks degrades independently to an
empty mapping on an internal exception — all-or-nothing, never a
partial mapping — and such failures never fail the query: on an
existing model and element it still returns a 200 view. -/
theorem degrade_to_empty_independent (e : Element) :
    (∀ err, e.objectTypeRead = .error err → (projectElement e).properties = []) ∧
    (∀ err, e.tagRead = .error err → (projectElement e).properties = []) ∧
    (∀ err, e.descriptionRead = .error err → (projectElement e).properties = []) ∧
    (∀ o t d, e.objectTypeRead = .ok o → e.tagRead = .ok t →
       e.descriptionRead = .ok d →
       (projectElement e).properties =
         [("ObjectType", o), ("Tag", t), ("Description", d)]) ∧
    (∀ err, e.getPsets = .error err → basePsets e = []) ∧
    (∀ err, e.isDefinedBy = .error err → elementQuantities e = []) ∧
    (∀ rels err, e.isDefinedBy = .ok rels →
       collectQuantities rels [] = .error err → elementQuantities e = []) ∧
    (∀ (st : SysState) (mid g : String) (entry : ModelEntry),
       Dict.lookup st.store mid = some entry →
       entry.file.byGuid g = .ok (some e) →
       get_element_by_guid st ⟨mid, g⟩ = .ok (projectElement e)) := by
  obtain ⟨gid, nm, ty, otr, tr, dr, gp, idb⟩ := e
  refine ⟨?_, ?_, ?_, ?_, ?_, ?_, ?_, ?_⟩
  · intro err h; subst h; rfl
  · intro err h; subst h; cases otr <;> rfl
  · intro err h; subst h; cases otr <;> cases tr <;> rfl
  · intro o t d h1 h2 h3; subst h1; subst h2; subst h3; rfl
  · intro err h; subst h; rfl
  · intro err h; subst h; rfl
  · intro rels err h1 h2; subst h1; simp [elementQuantities, h2]
  · intro st mid g entry h1 h2; simp [get_element_by_guid, h1, h2]

/-- Element whose ObjectType read, pset derivation and IsDefinedBy
traversal all raise. -/
def eC4 : Element :=
  { globalId := "1kTvXnbbzCWw8lcMd1dR4o"
    name := some "Wall-A"
    typeName := "IfcWall"
    objectTypeRead := .error "boom"
    tagRead := .ok (some "T1")
    descriptionRead := .ok none
    getPsets := .error "boom"
    isDefinedBy := .error "boom" }

/-- State holding a model that resolves the C4 element. -/
def stC4 : SysState :=
  ⟨[("m4", ⟨⟨[], 1, fun _ => .ok (some eC4)⟩, "/tmp/c", "c.ifc"⟩)], ["/tmp/c"]⟩

/-- Witness for C4: every block of the failing element degrades to
empty and the query still answers 200 with the view. -/
theorem degrade_to_empty_independent_witness :
    (projectElement eC4).properties = [] ∧
    basePsets eC4 = [] ∧
    elementQuantities eC4 = [] ∧
    get_element_by_guid stC4 ⟨"m4", "1kTvXnbbzCWw8lcMd1dR4o"⟩ =
      .ok (projectElement eC4) :=
  ⟨(degrade_to_empty_independent eC4).1 "boom" rfl,
   (degrade_to_empty_independent eC4).2.2.2.2.1 "boom" rfl,
   (degrade_to_empty_independent eC4).2.2.2.2.2.1 "boom" rfl,
   (degrade_to_empty_independent eC4).2.2.2.2.2.2.2 stC4 "m4" "1kTvXnbbzCWw8lcMd1dR4o"
     ⟨⟨[], 1, fun _ => .ok (some eC4)⟩, "/tmp/c", "c.ifc"⟩ rfl rfl⟩

/-- C8: On a successful upload, a model with no IfcProject root
reports project_name "Unknown" and is still accepted and registered;
with a project root, project_name is the Name of the first one. -/
theorem upload_project_name_policy (st : SysState) (fn tp nid : String)
    (m : IfcModel) :
    (m.projects = [] →
       (upload_ifc st fn tp nid (.ok m)).1 =
         .ok ⟨nid, fn, some "Unknown", m.productCount,
              "IFC file uploaded successfully"⟩ ∧
       Dict.lookup (upload_ifc st fn tp nid (.ok m)).2.store nid =
         some ⟨m, tp, fn⟩) ∧
    (∀ (p : IfcProject) (rest : List IfcProject), m.projects = p :: rest →
       (upload_ifc st fn tp nid (.ok m)).1 =
         .ok ⟨nid, fn, p.name, m.productCount,
              "IFC file uploaded successfully"⟩ ∧
       Dict.lookup (upload_ifc st fn tp nid (.ok m)).2.store nid =
         some ⟨m, tp, fn⟩) := by
  constructor
  · intro h
    exact ⟨by simp [upload_ifc, h], by simp [upload_ifc, lookup_insert]⟩
  · intro p rest h
    exact ⟨by simp [upload_ifc, h], by simp [upload_ifc, lookup_insert]⟩

/-- Model without a project root. -/
def mNoProj : IfcModel := ⟨[], 7, fun _ => .ok none⟩

/-- Model whose first project root is named "Office". -/
def mProj : IfcModel := ⟨[⟨some "Office"⟩], 7, fun _ => .ok none⟩

/-- Witness for C8: uploading a model without a project root reports
"Unknown" and registers the entry; with a root, its Name is reported. -/
theorem upload_project_name_policy_witness :
    (upload_ifc ⟨[], []⟩ "a.ifc" "/tmp/a" "m1" (.ok mNoProj)).1 =
      .ok ⟨"m1", "a.ifc", some "Unknown", 7, "IFC file uploaded successfully"⟩ ∧
    Dict.lookup (upload_ifc ⟨[], []⟩ "a.ifc" "/tmp/a" "m1" (.ok mNoProj)).2.store "m1" =
      some ⟨mNoProj, "/tmp/a", "a.ifc"⟩ ∧
    (upload_ifc ⟨[], []⟩ "b.ifc" "/tmp/b" "m2" (.ok mProj)).1 =
      .ok ⟨"m2", "b.ifc", some "Office", 7, "IFC file uploaded successfully"⟩ :=
  ⟨((upload_project_name_policy ⟨[], []⟩ "a.ifc" "/tmp/a" "m1" mNoProj).1 rfl).1,
   ((upload_project_name_policy ⟨[], []⟩ "a.ifc" "/tmp/a" "m1" mNoProj).1 rfl).2,
   ((upload_project_name_policy ⟨[], []⟩ "b.ifc" "/tmp/b" "m2" mProj).2
      ⟨some "Office"⟩ [] rfl).1⟩

/-- C5: Remove is idempotent-observable: after a successful Remove of a
model_id, querying it gives 404 "Model not found", removing it again
gives 404, and List no longer includes an entry with that model_id. -/
theorem remove_idempotent_observable (st : SysState) (mid : String)
    (res : Except String Unit) (msg : String) (st' : SysState)
    (h : remove_model st mid res = (.ok msg, st')) :
    (∀ g : String,
       get_element_by_guid st' ⟨mid, g⟩ = .httpError 404 "Model not found") ∧
    (∀ res2 : Except String Unit,
       remove_model st' mid res2 = (.httpError 404 "Model not found", st')) ∧
    (∀ fn : String, (mid, fn) ∉ list_models st') := by
  have hstore : Dict.lookup st'.store mid = none := by
    cases hl : Dict.lookup st.store mid with
    | none => simp [remove_model, hl] at h
    | some entry =>
      by_cases hd : entry.path ∈ st.disk
      · cases res with
        | error e => simp [remove_model, hl, hd] at h
        | ok u =>
          have h2 := congrArg (fun x => (Prod.snd x).store) h
          simp only [remove_model, hl, hd] at h2
          simp at h2
          rw [← h2]
          exact lookup_erase_self st.store mid
      · have h2 := congrArg (fun x => (Prod.snd x).store) h
        simp only [remove_model, hl, hd] at h2
        simp [hd] at h2
        rw [← h2]
        exact lookup_erase_self st.store mid
  refine ⟨fun g => by simp [get_element_by_guid, hstore],
          fun res2 => by simp [remove_model, hstore], ?_⟩
  intro fn hmem
  rcases List.mem_map.mp hmem with ⟨p, hp, he⟩
  have h1 : p.1 = mid := congrArg Prod.fst he
  have hp2 : (mid, p.2) ∈ st'.store := by
    have hpp : (p.1, p.2) ∈ st'.store := by simpa using hp
    rwa [h1] at hpp
  exact lookup_none_not_mem st'.store mid hstore p.2 hp2

/-- Single-model state used by the C5 witness. -/
def stC5 : SysState := ⟨[("m1", ⟨mEmpty, "/tmp/a", "a.ifc"⟩)], ["/tmp/a"]⟩

/-- Witness for C5: after removing the only model, query and remove
give 404 and the listing is empty. -/
theorem remove_idempotent_observable_witness :
    get_element_by_guid ⟨[], []⟩ ⟨"m1", "G"⟩ = .httpError 404 "Model not found" ∧
    remove_model ⟨[], []⟩ "m1" (.ok ()) = (.httpError 404 "Model not found", ⟨[], []⟩) ∧
    ("m1", "a.ifc") ∉ list_models ⟨[], []⟩ := by
  have H := remove_idempotent_observable stC5 "m1" (.ok ())
    "Model removed successfully" ⟨[], []⟩ rfl
  exact ⟨H.1 "G", H.2.1 (.ok ()), H.2.2 "a.ifc"⟩

/-- C6: Remove releases the backing scratch file, and a backing file
that is already missing is not an error: Remove still succeeds and
drops the store entry. -/
theorem remove_releases_storage (st : SysState) (mid : String)
    (entry : ModelEntry) (h : Dict.lookup st.store mid = some entry) :
    (entry.path ∈ st.disk → ∀ u : Unit,
       remove_model st mid (.ok u) =
         (.ok "Model removed successfully",
          ⟨Dict.erase st.store mid,
           st.disk.filter (fun p => p != entry.path)⟩) ∧
       entry.path ∉ (remove_model st mid (.ok u)).2.disk) ∧
    (entry.path ∉ st.disk → ∀ res : Except String Unit,
       remove_model st mid res =
         (.ok "Model removed successfully",
          ⟨Dict.erase st.store mid, st.disk⟩) ∧
       Dict.lookup (remove_model st mid res).2.store mid = none) := by
  constructor
  · intro hd u
    refine ⟨by simp [remove_model, h, hd], ?_⟩
    simp [remove_model, h, hd]
  · intro hd res
    refine ⟨by simp [remove_model, h, hd], ?_⟩
    simp [remove_model, h, hd, lookup_erase_self]

/-- State whose single entry has its scratch file present. -/
def stC6 : SysState := ⟨[("m1", ⟨mEmpty, "/tmp/a", "a.ifc"⟩)], ["/tmp/a"]⟩

/-- State whose single entry has its scratch file already missing. -/
def stC6b : SysState := ⟨[("m1", ⟨mEmpty, "/tmp/a", "a.ifc"⟩)], []⟩

/-- Witness for C6: with the file present, Remove deletes it; with the
file missing, Remove still succeeds (os.remove is never consulted) and
drops the entry. -/
theorem remove_releases_storage_witness :
    ("/tmp/a" ∈ stC6.disk ∧
     remove_model stC6 "m1" (.ok ()) =
       (.ok "Model removed successfully",
        ⟨Dict.erase stC6.store "m1",
         stC6.disk.filter (fun p => p != "/tmp/a")⟩)) ∧
    ("/tmp/a" ∉ stC6b.disk ∧
     remove_model stC6b "m1" (.error "perm") =
       (.ok "Model removed successfully",
        ⟨Dict.erase stC6b.store "m1", stC6b.disk⟩)) :=
  ⟨⟨by decide,
    ((remove_releases_storage stC6 "m1" ⟨mEmpty, "/tmp/a", "a.ifc"⟩ rfl).1
       (by decide) ()).1⟩,
   ⟨by decide,
    ((remove_releases_storage stC6b "m1" ⟨mEmpty, "/tmp/a", "a.ifc"⟩ rfl).2
       (by decide) (.error "perm")).1⟩⟩

/-- C10: If deleting the backing file raises, Remove returns a 500 and
the state is unchanged: the entry stays registered, still appears in
List, and the model is still queryable. -/
theorem remove_failure_preserves_state (st : SysState) (mid : String)
    (entry : ModelEntry) (err : String)
    (h : Dict.lookup st.store mid = some entry) (hd : entry.path ∈ st.disk) :
    remove_model st mid (.error err) =
      (.httpError 500 ("Error removing model: " ++ err), st) ∧
    (mid, entry.filename) ∈ list_models st ∧
    (∀ (g : String) (el : Element), entry.file.byGuid g = .ok (some el) →
       get_element_by_guid st ⟨mid, g⟩ = .ok (projectElement el)) := by
  refine ⟨by simp [remove_model, h, hd], ?_, ?_⟩
  · have hm := lookup_some_mem st.store mid entry h
    exact List.mem_map.mpr ⟨(mid, entry), hm, rfl⟩
  · intro g el hg
    simp [get_element_by_guid, h, hg]

/-- Element resolved by the C10 witness model. -/
def el10 : Element :=
  ⟨"3vB2YO8mv4yRh99DLvBRe7", none, "IfcBeam",
   .ok none, .ok none, .ok none, .ok [], .ok []⟩

/-- State whose single entry has its scratch file present and resolves
the C10 element. -/
def st10 : SysState :=
  ⟨[("m9", ⟨⟨[], 1, fun _ => .ok (some el10)⟩, "/tmp/z", "z.ifc"⟩)], ["/tmp/z"]⟩

/-- Witness for C10: a raising os.remove yields a 500 with the entry
still listed and queryable. -/
theorem remove_failure_preserves_state_witness :
    remove_model st10 "m9" (.error "disk") =
      (.httpError 500 ("Error removing model: " ++ "disk"), st10) ∧
    ("m9", "z.ifc") ∈ list_models st10 ∧
    get_element_by_guid st10 ⟨"m9", "3vB2YO8mv4yRh99DLvBRe7"⟩ =
      .ok (projectElement el10) := by
  have H := remove_failure_preserves_state st10 "m9"
    ⟨⟨[], 1, fun _ => .ok (some el10)⟩, "/tmp/z", "z.ifc"⟩ "disk" rfl (by decide)
  exact ⟨H.1, H.2.1, H.2.2 "3vB2YO8mv4yRh99DLvBRe7" el10 rfl⟩

end BIM
